import Mathlib

/-!
Shallow embedding of the core ray-tracer of `rust-ray-tracer-challenge`
(geometric intersection model and recursive shading pipeline), over exact
rationals in place of `f32`.

Conventions used throughout:
* `f32` values are embedded as `ℚ`; all arithmetic is exact.
* Square roots (`f32::sqrt`) are not computable on `ℚ`, so every function
  that calls `sqrt` takes an explicit oracle `sq : ℚ → ℚ` as its first
  argument; theorems that depend on actual square-root behaviour carry
  pointwise hypotheses such as `sq v * sq v = v` at the values used.
* Code that panics (e.g. `Group::local_normal_at`) is embedded as an
  `Option`-returning function, with `none` for the panic.
* `uuid::Uuid` shape identities are embedded as `ℕ`.
-/

/-- Epsilon of the global `MARGIN` constant. Modelled from the spec: the repo
snapshot uses `MARGIN.epsilon` (crate root constant not present under `src/`);
the spec fixes the shared epsilon at 1e-4 to 1e-5 and the crate's `EPSILON`
in `main.rs` is `0.0001`. -/
def marginEpsilon : ℚ := 1 / 10000

/-- Embeds `EPSILON` from `main.rs` (`pub const EPSILON: f32 = 0.0001`). -/
def EPSILON : ℚ := 1 / 10000

/-- Embeds `f32::abs`. -/
def qabs (q : ℚ) : ℚ := if q < 0 then -q else q

/-- Embeds `float_eq` from `main.rs`: `(y - x).abs() < EPSILON`. -/
def floatEq (x y : ℚ) : Bool := qabs (y - x) < EPSILON

/-- Default margin of `float_cmp`'s `approx_eq!(f32, a, b)` macro, modelled
as the machine epsilon `f32::EPSILON = 2⁻²³` (the ulps component of the
margin is not representable over `ℚ` and is dropped). -/
def f32MachineEpsilon : ℚ := 1 / 8388608

/-- Embeds `std::f32::MAX` = (2²⁴ − 1)·2¹⁰⁴, exactly. -/
def f32MAX : ℚ := (2 ^ 24 - 1) * 2 ^ 104

/-- The 4-component tuple (`Tuple` in `tuple.rs`): a point when `w = 1`,
a vector when `w = 0`. -/
structure Tuple where
  x : ℚ
  y : ℚ
  z : ℚ
  w : ℚ
deriving DecidableEq, Repr

/-- Embeds `Tuple::point(x, y, z)`: tuple with `w = 1`. -/
def Tuple.point (x y z : ℚ) : Tuple := ⟨x, y, z, 1⟩

/-- Embeds `Tuple::vector(x, y, z)`: tuple with `w = 0`. -/
def Tuple.vector (x y z : ℚ) : Tuple := ⟨x, y, z, 0⟩

/-- Componentwise addition of tuples. -/
def Tuple.add (a b : Tuple) : Tuple := ⟨a.x + b.x, a.y + b.y, a.z + b.z, a.w + b.w⟩

/-- Componentwise subtraction of tuples. -/
def Tuple.sub (a b : Tuple) : Tuple := ⟨a.x - b.x, a.y - b.y, a.z - b.z, a.w - b.w⟩

/-- Negation (`Tuple::default() - self` in the source). -/
def Tuple.neg (a : Tuple) : Tuple := ⟨-a.x, -a.y, -a.z, -a.w⟩

/-- Scalar multiplication `tuple * f32`. -/
def Tuple.smul (a : Tuple) (k : ℚ) : Tuple := ⟨a.x * k, a.y * k, a.z * k, a.w * k⟩

instance : Add Tuple := ⟨Tuple.add⟩

instance : Sub Tuple := ⟨Tuple.sub⟩

instance : Neg Tuple := ⟨Tuple.neg⟩

instance : HMul Tuple ℚ Tuple := ⟨Tuple.smul⟩

/-- Dot product over all four components. -/
def Tuple.dot (a b : Tuple) : ℚ := a.x * b.x + a.y * b.y + a.z * b.z + a.w * b.w

/-- Sum of squares of all four components (`magnitude` squared). -/
def Tuple.sumsq (a : Tuple) : ℚ := a.dot a

/-- Magnitude: square root of the sum of squares of all four components,
through the sqrt oracle. -/
def Tuple.magnitude (sq : ℚ → ℚ) (a : Tuple) : ℚ := sq a.sumsq

/-- Normalization: each of the four components divided by the magnitude. -/
def Tuple.normalize (sq : ℚ → ℚ) (a : Tuple) : Tuple :=
  let m := a.magnitude sq
  ⟨a.x / m, a.y / m, a.z / m, a.w / m⟩

/-- Reflection of a vector about a normal. Modelled from the spec: the
linear-algebra collaborator's `reflect`, `v − n·2·(v⋅n)` (the concrete
`Tuple::reflect` is not present under `src/`). -/
def Tuple.reflect (v n : Tuple) : Tuple := v - n * (2 * v.dot n)

/-- Embeds `Tuple::to_vector`: force `w` to zero, keeping the spatial part. -/
def Tuple.toVector (a : Tuple) : Tuple := ⟨a.x, a.y, a.z, 0⟩

/-- RGB color (`Color`), three `f32` channels. -/
structure Color where
  red : ℚ
  green : ℚ
  blue : ℚ
deriving DecidableEq, Repr

/-- Embeds `color::BLACK`. -/
def Color.BLACK : Color := ⟨0, 0, 0⟩

/-- Componentwise color addition. -/
def Color.add (a b : Color) : Color := ⟨a.red + b.red, a.green + b.green, a.blue + b.blue⟩

/-- Hadamard (componentwise) product, the `Color * Color` multiplication. -/
def Color.hadamard (a b : Color) : Color := ⟨a.red * b.red, a.green * b.green, a.blue * b.blue⟩

/-- Color scaled by an `f32` (`Color * f32`). -/
def Color.smul (a : Color) (k : ℚ) : Color := ⟨a.red * k, a.green * k, a.blue * k⟩

instance : Add Color := ⟨Color.add⟩

instance : HMul Color Color Color := ⟨Color.hadamard⟩

instance : HMul Color ℚ Color := ⟨Color.smul⟩

/-- Row-major 4×4 matrix (`Transform` wrapping the linear-algebra
collaborator's `Mat4`); `mIJ` is the entry at row `I`, column `J`. -/
structure Mat4 where
  m00 : ℚ
  m01 : ℚ
  m02 : ℚ
  m03 : ℚ
  m10 : ℚ
  m11 : ℚ
  m12 : ℚ
  m13 : ℚ
  m20 : ℚ
  m21 : ℚ
  m22 : ℚ
  m23 : ℚ
  m30 : ℚ
  m31 : ℚ
  m32 : ℚ
  m33 : ℚ
deriving DecidableEq, Repr

/-- Identity transform (`transformations::IDENTITY`). -/
def Mat4.identity : Mat4 :=
  ⟨1, 0, 0, 0, 0, 1, 0, 0, 0, 0, 1, 0, 0, 0, 0, 1⟩

/-- Embeds `Transform::translation(x, y, z)`. -/
def Mat4.translation (x y z : ℚ) : Mat4 :=
  ⟨1, 0, 0, x, 0, 1, 0, y, 0, 0, 1, z, 0, 0, 0, 1⟩

/-- Embeds `Transform::scaling(x, y, z)`. -/
def Mat4.scaling (x y z : ℚ) : Mat4 :=
  ⟨x, 0, 0, 0, 0, y, 0, 0, 0, 0, z, 0, 0, 0, 0, 1⟩

/-- Matrix transpose. -/
def Mat4.transpose (m : Mat4) : Mat4 :=
  ⟨m.m00, m.m10, m.m20, m.m30,
   m.m01, m.m11, m.m21, m.m31,
   m.m02, m.m12, m.m22, m.m32,
   m.m03, m.m13, m.m23, m.m33⟩

/-- Determinant of a 3×3 matrix given row-major. -/
def det3 (a b c d e f g h i : ℚ) : ℚ :=
  a * (e * i - f * h) - b * (d * i - f * g) + c * (d * h - e * g)

/-- Determinant of a 4×4 matrix (cofactor expansion along the first row). -/
def Mat4.det (m : Mat4) : ℚ :=
  m.m00 * det3 m.m11 m.m12 m.m13 m.m21 m.m22 m.m23 m.m31 m.m32 m.m33
  - m.m01 * det3 m.m10 m.m12 m.m13 m.m20 m.m22 m.m23 m.m30 m.m32 m.m33
  + m.m02 * det3 m.m10 m.m11 m.m13 m.m20 m.m21 m.m23 m.m30 m.m31 m.m33
  - m.m03 * det3 m.m10 m.m11 m.m12 m.m20 m.m21 m.m22 m.m30 m.m31 m.m32

/-- Matrix inverse by the adjugate formula. Modelled from the spec: the
linear-algebra collaborator must provide the 4×4 inverse (`Mat4::inverse`
of the external bevy library); entry `(i,j)` of the inverse is the cofactor
`C(j,i)` divided by the determinant. -/
def Mat4.inverse (m : Mat4) : Mat4 :=
  let d := m.det
  ⟨(det3 m.m11 m.m12 m.m13 m.m21 m.m22 m.m23 m.m31 m.m32 m.m33) / d,
   (-(det3 m.m01 m.m02 m.m03 m.m21 m.m22 m.m23 m.m31 m.m32 m.m33)) / d,
   (det3 m.m01 m.m02 m.m03 m.m11 m.m12 m.m13 m.m31 m.m32 m.m33) / d,
   (-(det3 m.m01 m.m02 m.m03 m.m11 m.m12 m.m13 m.m21 m.m22 m.m23)) / d,
   (-(det3 m.m10 m.m12 m.m13 m.m20 m.m22 m.m23 m.m30 m.m32 m.m33)) / d,
   (det3 m.m00 m.m02 m.m03 m.m20 m.m22 m.m23 m.m30 m.m32 m.m33) / d,
   (-(det3 m.m00 m.m02 m.m03 m.m10 m.m12 m.m13 m.m30 m.m32 m.m33)) / d,
   (det3 m.m00 m.m02 m.m03 m.m10 m.m12 m.m13 m.m20 m.m22 m.m23) / d,
   (det3 m.m10 m.m11 m.m13 m.m20 m.m21 m.m23 m.m30 m.m31 m.m33) / d,
   (-(det3 m.m00 m.m01 m.m03 m.m20 m.m21 m.m23 m.m30 m.m31 m.m33)) / d,
   (det3 m.m00 m.m01 m.m03 m.m10 m.m11 m.m13 m.m30 m.m31 m.m33) / d,
   (-(det3 m.m00 m.m01 m.m03 m.m10 m.m11 m.m13 m.m20 m.m21 m.m23)) / d,
   (-(det3 m.m10 m.m11 m.m12 m.m20 m.m21 m.m22 m.m30 m.m31 m.m32)) / d,
   (det3 m.m00 m.m01 m.m02 m.m20 m.m21 m.m22 m.m30 m.m31 m.m32) / d,
   (-(det3 m.m00 m.m01 m.m02 m.m10 m.m11 m.m12 m.m30 m.m31 m.m32)) / d,
   (det3 m.m00 m.m01 m.m02 m.m10 m.m11 m.m12 m.m20 m.m21 m.m22) / d⟩

/-- Embeds `Mul<Tuple> for Transform` from `transformations.rs`: the full 4×4
product is computed, but the result keeps the INPUT tuple's `w` component
(`Tuple::new(vec.x, vec.y, vec.z, rhs.vec().w)`), discarding the computed
fourth row. -/
def Mat4.mulTuple (m : Mat4) (t : Tuple) : Tuple :=
  ⟨m.m00 * t.x + m.m01 * t.y + m.m02 * t.z + m.m03 * t.w,
   m.m10 * t.x + m.m11 * t.y + m.m12 * t.z + m.m13 * t.w,
   m.m20 * t.x + m.m21 * t.y + m.m22 * t.z + m.m23 * t.w,
   t.w⟩

/-- Embeds `PartialEq for Transform`: entrywise `float_eq` (epsilon comparison),
not exact equality. -/
def Mat4.peq (a b : Mat4) : Bool :=
  floatEq a.m00 b.m00 && floatEq a.m01 b.m01 && floatEq a.m02 b.m02 && floatEq a.m03 b.m03 &&
  floatEq a.m10 b.m10 && floatEq a.m11 b.m11 && floatEq a.m12 b.m12 && floatEq a.m13 b.m13 &&
  floatEq a.m20 b.m20 && floatEq a.m21 b.m21 && floatEq a.m22 b.m22 && floatEq a.m23 b.m23 &&
  floatEq a.m30 b.m30 && floatEq a.m31 b.m31 && floatEq a.m32 b.m32 && floatEq a.m33 b.m33

/-- Surface material (`Material` in `materials.rs`). The optional pattern is
embedded as an opaque pattern identity (`ℕ`); pattern sampling is supplied to
`lighting` as an explicit function, mirroring the call to
`pattern.pattern_at_shape(object, point)`. -/
structure Material where
  color : Color
  ambient : ℚ
  diffuse : ℚ
  reflective : ℚ
  specular : ℚ
  shininess : ℚ
  transparency : ℚ
  refractiveIndex : ℚ
  pattern : Option ℕ
deriving DecidableEq, Repr

/-- Embeds `Material::default()`. -/
def Material.default : Material :=
  { color := ⟨1, 1, 1⟩
    ambient := 1/10
    diffuse := 9/10
    reflective := 0
    specular := 9/10
    shininess := 200
    transparency := 0
    refractiveIndex := 1
    pattern := none }

/-- A shape: identity (`Uuid`, embedded as `ℕ`), world transform, material,
and the primitive-specific geometry. `Group` owns its children. -/
inductive Shape where
  | sphere (id : ℕ) (transform : Mat4) (material : Material)
  | plane (id : ℕ) (transform : Mat4) (material : Material)
  | cube (id : ℕ) (transform : Mat4) (material : Material)
  | cylinder (id : ℕ) (transform : Mat4) (material : Material)
      (minimum maximum : ℚ) (closed : Bool)
  | cone (id : ℕ) (transform : Mat4) (material : Material)
      (minimum maximum : ℚ) (closed : Bool)
  | group (id : ℕ) (transform : Mat4) (material : Material) (children : List Shape)
deriving Repr

/-- Embeds `Shape::id()`. -/
def Shape.id : Shape → ℕ
  | .sphere i _ _ => i
  | .plane i _ _ => i
  | .cube i _ _ => i
  | .cylinder i _ _ _ _ _ => i
  | .cone i _ _ _ _ _ => i
  | .group i _ _ _ => i

/-- Embeds `Shape::transform()`. -/
def Shape.transform : Shape → Mat4
  | .sphere _ t _ => t
  | .plane _ t _ => t
  | .cube _ t _ => t
  | .cylinder _ t _ _ _ _ => t
  | .cone _ t _ _ _ _ => t
  | .group _ t _ _ => t

/-- Embeds `Shape::material()`. -/
def Shape.material : Shape → Material
  | .sphere _ _ m => m
  | .plane _ _ m => m
  | .cube _ _ m => m
  | .cylinder _ _ m _ _ _ => m
  | .cone _ _ m _ _ _ => m
  | .group _ _ m _ => m

/-- Embeds `PartialEq for dyn Shape` (and `Shape::shape_eq`): identity comparison. -/
def Shape.shapeEq (a b : Shape) : Bool := a.id == b.id

/-- Embeds `Sphere::default()` with a chosen id. -/
def Shape.defaultSphere (i : ℕ) : Shape := .sphere i Mat4.identity Material.default

/-- Embeds `Sphere::glass()` with a chosen id: default sphere with
`transparency 1.0` and `refractive_index 1.5`. -/
def Shape.glassSphere (i : ℕ) : Shape :=
  .sphere i Mat4.identity { Material.default with transparency := 1, refractiveIndex := 3/2 }

/-- A ray (`Ray` in `ray.rs`): origin point and direction vector. -/
structure Ray where
  origin : Tuple
  direction : Tuple
deriving DecidableEq, Repr

/-- Embeds `Ray::position(t)`: `origin + direction * t`. -/
def Ray.position (r : Ray) (t : ℚ) : Tuple := r.origin + r.direction * t

/-- Embeds `Ray::transform(transform)`: apply the matrix to origin and direction. -/
def Ray.transformBy (r : Ray) (m : Mat4) : Ray :=
  ⟨m.mulTuple r.origin, m.mulTuple r.direction⟩

/-- An intersection record (`Intersection`): hit distance `t` plus the shape
hit. -/
structure Intersection where
  t : ℚ
  object : Shape
deriving Repr

/-- Embeds `PartialEq for Intersection` from `intersection.rs`: exact equality of
`t` together with equality of the owning shapes' materials and epsilon
equality of their transforms — the shape identity is NOT compared. -/
def Intersection.peq (a b : Intersection) : Bool :=
  a.t == b.t && a.object.material == b.object.material
    && Mat4.peq a.object.transform b.object.transform

/-- Embeds `Intersections::hit()`: `iter().filter(|i| i.t >= 0.0).min_by(...)`.
Rust's `min_by` keeps the first of equally-minimal elements, embedded as a
left fold that replaces the current minimum only on strict decrease. -/
def hit (xs : List Intersection) : Option Intersection :=
  (xs.filter fun i => 0 ≤ i.t).foldl
    (fun acc i =>
      match acc with
      | none => some i
      | some m => if i.t < m.t then some i else some m)
    none

/-- Embeds `min` over three values from `cube.rs` (implemented there by sorting the
slice and taking the first element). -/
def min3 (a b c : ℚ) : ℚ := min a (min b c)

/-- Embeds `max` over three values from `cube.rs` (sorting, last element). -/
def max3 (a b c : ℚ) : ℚ := max a (max b c)

/-- Embeds `check_axis` from `cube.rs`: slab entry/exit distances for one axis,
substituting a `f32::MAX` product when the direction component is below the
margin epsilon. -/
def checkAxis (origin direction : ℚ) : ℚ × ℚ :=
  let tminNumerator := -1 - origin
  let tmaxNumerator := 1 - origin
  let p :=
    if qabs direction ≥ marginEpsilon then
      (tminNumerator / direction, tmaxNumerator / direction)
    else
      (tminNumerator * f32MAX, tmaxNumerator * f32MAX)
  if p.1 > p.2 then (p.2, p.1) else p

/-- Embeds `check_cap` from `cylinder.rs`: is the cap hit within the unit radius. -/
def checkCapCyl (ray : Ray) (t : ℚ) : Bool :=
  let x := ray.origin.x + t * ray.direction.x
  let z := ray.origin.z + t * ray.direction.z
  x ^ 2 + z ^ 2 ≤ 1

/-- Embeds `check_cap` from `cone.rs`: cap radius varies with the cap height `y`. -/
def checkCapCone (ray : Ray) (t : ℚ) (y : ℚ) : Bool :=
  let x := ray.origin.x + t * ray.direction.x
  let z := ray.origin.z + t * ray.direction.z
  x ^ 2 + z ^ 2 ≤ y ^ 2

/-- Embeds `approx_eq!(f32, a, b)` via `qabs` (see `approxEqF32`). -/
def approxEq (a b : ℚ) : Bool := qabs (a - b) ≤ f32MachineEpsilon

/-- Embeds `Cylinder::intersect_caps`: append end-cap hits when the cylinder is
closed and the ray is not parallel to the caps. -/
def cylinderIntersectCaps (self : Shape) (minimum maximum : ℚ) (closed : Bool)
    (ray : Ray) (xs : List Intersection) : List Intersection :=
  if !closed || approxEq ray.direction.y 0 then xs
  else
    let tBottom := (minimum - ray.origin.y) / ray.direction.y
    let xs1 := if checkCapCyl ray tBottom then xs ++ [⟨tBottom, self⟩] else xs
    let tTop := (maximum - ray.origin.y) / ray.direction.y
    if checkCapCyl ray tTop then xs1 ++ [⟨tTop, self⟩] else xs1

/-- Embeds `Cone::intersect_caps`. -/
def coneIntersectCaps (self : Shape) (minimum maximum : ℚ) (closed : Bool)
    (ray : Ray) (xs : List Intersection) : List Intersection :=
  if !closed || approxEq ray.direction.y 0 then xs
  else
    let tBottom := (minimum - ray.origin.y) / ray.direction.y
    let xs1 := if checkCapCone ray tBottom minimum then xs ++ [⟨tBottom, self⟩] else xs
    let tTop := (maximum - ray.origin.y) / ray.direction.y
    if checkCapCone ray tTop maximum then xs1 ++ [⟨tTop, self⟩] else xs1

/-- The `y` coordinate of a ray at distance `t` (the `y0`/`y1` values of the
cylinder and cone body-root filters). -/
def rayY (ray : Ray) (t : ℚ) : ℚ := ray.origin.y + t * ray.direction.y

/-- Coefficient `a` of the cylinder body quadratic. -/
def cylA (ray : Ray) : ℚ := ray.direction.x ^ 2 + ray.direction.z ^ 2

/-- Coefficient `b` of the cylinder body quadratic. -/
def cylB (ray : Ray) : ℚ :=
  2 * ray.origin.x * ray.direction.x + 2 * ray.origin.z * ray.direction.z

/-- Coefficient `c` of the cylinder body quadratic. -/
def cylC (ray : Ray) : ℚ := ray.origin.x ^ 2 + ray.origin.z ^ 2 - 1

/-- Discriminant of the cylinder body quadratic. -/
def cylDisc (ray : Ray) : ℚ := cylB ray ^ 2 - 4 * cylA ray * cylC ray

/-- First computed root `t0` of the cylinder body quadratic. -/
def cylR0 (sq : ℚ → ℚ) (ray : Ray) : ℚ :=
  (-cylB ray - sq (cylDisc ray)) / (2 * cylA ray)

/-- Second computed root `t1` of the cylinder body quadratic. -/
def cylR1 (sq : ℚ → ℚ) (ray : Ray) : ℚ :=
  (-cylB ray + sq (cylDisc ray)) / (2 * cylA ray)

/-- The smaller cylinder body root after the `t0 > t1` swap. -/
def cylT0 (sq : ℚ → ℚ) (ray : Ray) : ℚ :=
  if cylR0 sq ray > cylR1 sq ray then cylR1 sq ray else cylR0 sq ray

/-- The larger cylinder body root after the `t0 > t1` swap. -/
def cylT1 (sq : ℚ → ℚ) (ray : Ray) : ℚ :=
  if cylR0 sq ray > cylR1 sq ray then cylR0 sq ray else cylR1 sq ray

/-- Coefficient `a` of the cone body quadratic. -/
def coneA (ray : Ray) : ℚ :=
  ray.direction.x ^ 2 - ray.direction.y ^ 2 + ray.direction.z ^ 2

/-- Coefficient `b` of the cone body quadratic. -/
def coneB (ray : Ray) : ℚ :=
  2 * ray.origin.x * ray.direction.x - 2 * ray.origin.y * ray.direction.y
    + 2 * ray.origin.z * ray.direction.z

/-- Coefficient `c` of the cone body quadratic. -/
def coneC (ray : Ray) : ℚ :=
  ray.origin.x ^ 2 - ray.origin.y ^ 2 + ray.origin.z ^ 2

/-- Discriminant of the cone body quadratic. -/
def coneDisc (ray : Ray) : ℚ := coneB ray ^ 2 - 4 * coneA ray * coneC ray

/-- First computed root of the cone body quadratic. -/
def coneR0 (sq : ℚ → ℚ) (ray : Ray) : ℚ :=
  (-coneB ray - sq (coneDisc ray)) / (2 * coneA ray)

/-- Second computed root of the cone body quadratic. -/
def coneR1 (sq : ℚ → ℚ) (ray : Ray) : ℚ :=
  (-coneB ray + sq (coneDisc ray)) / (2 * coneA ray)

/-- The smaller cone body root after the swap. -/
def coneT0 (sq : ℚ → ℚ) (ray : Ray) : ℚ :=
  if coneR0 sq ray > coneR1 sq ray then coneR1 sq ray else coneR0 sq ray

/-- The larger cone body root after the swap. -/
def coneT1 (sq : ℚ → ℚ) (ray : Ray) : ℚ :=
  if coneR0 sq ray > coneR1 sq ray then coneR0 sq ray else coneR1 sq ray

/-- Stable insertion of an intersection into a `t`-sorted list. -/
def insertByT (i : Intersection) : List Intersection → List Intersection
  | [] => [i]
  | j :: rest => if i.t ≤ j.t then i :: j :: rest else j :: insertByT i rest

/-- Stable ascending sort by `t` (`sort_by(partial_cmp)` in the source). -/
def sortByT (xs : List Intersection) : List Intersection :=
  xs.foldr insertByT []

/-- Embeds `Sphere::local_intersect` from `sphere.rs` (the argument `s` is the
sphere itself, recorded in the returned intersections). -/
def sphereLocalIntersect (sq : ℚ → ℚ) (s : Shape) (ray : Ray) : List Intersection :=
  let a := ray.direction.dot ray.direction
  let sphereToRay := ray.origin - Tuple.point 0 0 0
  let b := 2 * ray.direction.dot sphereToRay
  let c := sphereToRay.dot sphereToRay - 1
  let discriminant := b ^ 2 - 4 * a * c
  if discriminant < 0 then []
  else [⟨(-b - sq discriminant) / (2 * a), s⟩, ⟨(-b + sq discriminant) / (2 * a), s⟩]

/-- Embeds `Plane::local_intersect` from `plane.rs`. -/
def planeLocalIntersect (s : Shape) (ray : Ray) : List Intersection :=
  if qabs ray.direction.y < EPSILON then []
  else [⟨-ray.origin.y / ray.direction.y, s⟩]

/-- Embeds `Cube::local_intersect` from `cube.rs`. -/
def cubeLocalIntersect (s : Shape) (ray : Ray) : List Intersection :=
  let xt := checkAxis ray.origin.x ray.direction.x
  let yt := checkAxis ray.origin.y ray.direction.y
  let zt := checkAxis ray.origin.z ray.direction.z
  let tmin := max3 xt.1 yt.1 zt.1
  let tmax := min3 xt.2 yt.2 zt.2
  if tmin > tmax then [] else [⟨tmin, s⟩, ⟨tmax, s⟩]

/-- Embeds `Cylinder::local_intersect` from `cylinder.rs`: if the ray is parallel
to the axis (`a ≈ 0` with the default `float_cmp` margin), only cap tests
apply; else solve the body quadratic, keep each root `t` only when
`minimum < y(t) < maximum` holds STRICTLY, then add cap hits. -/
def cylinderLocalIntersect (sq : ℚ → ℚ) (s : Shape) (minimum maximum : ℚ)
    (closed : Bool) (ray : Ray) : List Intersection :=
  if approxEq (cylA ray) 0 then cylinderIntersectCaps s minimum maximum closed ray []
  else if cylDisc ray < 0 then []
  else
    let t0 := cylT0 sq ray
    let t1 := cylT1 sq ray
    let xs0 :=
      if minimum < rayY ray t0 ∧ rayY ray t0 < maximum
      then [(⟨t0, s⟩ : Intersection)] else []
    let xs1 :=
      if minimum < rayY ray t1 ∧ rayY ray t1 < maximum
      then xs0 ++ [⟨t1, s⟩] else xs0
    cylinderIntersectCaps s minimum maximum closed ray xs1

/-- Embeds `Cone::local_intersect` from `cone.rs`: degenerate `a ≈ 0` cases
(`MARGIN` epsilon) first, then the body quadratic with the same strict
`minimum < y < maximum` filter, then cap hits. -/
def coneLocalIntersect (sq : ℚ → ℚ) (s : Shape) (minimum maximum : ℚ)
    (closed : Bool) (ray : Ray) : List Intersection :=
  if qabs (coneA ray) ≤ marginEpsilon ∧ qabs (coneB ray) ≤ marginEpsilon then
    coneIntersectCaps s minimum maximum closed ray []
  else if qabs (coneA ray) ≤ marginEpsilon then
    coneIntersectCaps s minimum maximum closed ray [⟨-coneC ray / (2 * coneB ray), s⟩]
  else if coneDisc ray < 0 then []
  else
    let t0 := coneT0 sq ray
    let t1 := coneT1 sq ray
    let xs0 :=
      if minimum < rayY ray t0 ∧ rayY ray t0 < maximum
      then [(⟨t0, s⟩ : Intersection)] else []
    let xs1 :=
      if minimum < rayY ray t1 ∧ rayY ray t1 < maximum
      then xs0 ++ [⟨t1, s⟩] else xs0
    coneIntersectCaps s minimum maximum closed ray xs1

mutual

/-- Embeds `local_intersect` of each primitive, dispatching on the geometry:
sphere (`sphere.rs`), plane (`plane.rs`), cube (`cube.rs`), cylinder
(`cylinder.rs`), cone (`cone.rs`) and group (`group.rs`). -/
def Shape.localIntersect (sq : ℚ → ℚ) (s : Shape) (ray : Ray) : List Intersection :=
  match s with
  | .sphere _ _ _ => sphereLocalIntersect sq s ray
  | .plane _ _ _ => planeLocalIntersect s ray
  | .cube _ _ _ => cubeLocalIntersect s ray
  | .cylinder _ _ _ minimum maximum closed =>
    cylinderLocalIntersect sq s minimum maximum closed ray
  | .cone _ _ _ minimum maximum closed =>
    coneLocalIntersect sq s minimum maximum closed ray
  | .group _ _ _ children =>
    sortByT (Shape.intersectChildren sq children ray)

/-- Embeds `Shape::intersect`: transform the ray by the inverse of the shape's
transform, then `local_intersect`. -/
def Shape.intersect (sq : ℚ → ℚ) (s : Shape) (ray : Ray) : List Intersection :=
  Shape.localIntersect sq s (ray.transformBy s.transform.inverse)

/-- Concatenation of the intersections of a group's children
(the loop body of `Group::local_intersect`). -/
def Shape.intersectChildren (sq : ℚ → ℚ) : List Shape → Ray → List Intersection
  | [], _ => []
  | c :: rest, ray => Shape.intersect sq c ray ++ Shape.intersectChildren sq rest ray

end

/-- Embeds `local_normal_at` of each primitive. `Group::local_normal_at` panics
(`panic!("Don't call me bro!")`), embedded as `none`; every other primitive
returns a vector. The sqrt oracle is needed only by the cone's side normal. -/
def Shape.localNormalAt (sq : ℚ → ℚ) (s : Shape) (p : Tuple) : Option Tuple :=
  match s with
  | .sphere _ _ _ => some (p - Tuple.point 0 0 0)
  | .plane _ _ _ => some (Tuple.vector 0 1 0)
  | .cube _ _ _ =>
    let absX := qabs p.x
    let absY := qabs p.y
    let absZ := qabs p.z
    let maxc := max3 absX absY absZ
    if maxc = absX then some (Tuple.vector p.x 0 0)
    else if maxc = absY then some (Tuple.vector 0 p.y 0)
    else if maxc = absZ then some (Tuple.vector 0 0 p.z)
    else none
  | .cylinder _ _ _ minimum maximum _ =>
    let dist := p.x ^ 2 + p.z ^ 2
    if dist < 1 ∧ p.y ≥ maximum - marginEpsilon then some (Tuple.vector 0 1 0)
    else if dist < 1 ∧ p.y ≤ minimum + marginEpsilon then some (Tuple.vector 0 (-1) 0)
    else some (Tuple.vector p.x 0 p.z)
  | .cone _ _ _ minimum maximum _ =>
    let dist := p.x ^ 2 + p.z ^ 2
    if dist < 1 ∧ p.y ≥ maximum - marginEpsilon then some (Tuple.vector 0 1 0)
    else if dist < 1 ∧ p.y ≤ minimum + marginEpsilon then some (Tuple.vector 0 (-1) 0)
    else
      let y0 := sq dist
      let y1 := if p.y > 0 then -y0 else y0
      some (Tuple.vector p.x y1 p.z)
  | .group _ _ _ _ => none

/-- Does this shape's `normal_at` override insert the `to_vector` step?
`cube.rs`, `cylinder.rs` and `cone.rs` implement `normal_at` themselves and
force the transformed normal to a vector before normalizing; `sphere.rs`,
`plane.rs` and `group.rs` use the default `Shape::normal_at` of
`shapes/mod.rs`, which does not. -/
def Shape.overridesToVector : Shape → Bool
  | .cube _ _ _ => true
  | .cylinder _ _ _ _ _ _ => true
  | .cone _ _ _ _ _ _ => true
  | _ => false

/-- World normal before the final normalization: local point via the inverse
transform, `local_normal_at`, then the inverse-transpose applied to the
local normal (and `to_vector` for the overriding shapes). -/
def Shape.worldNormalRaw (sq : ℚ → ℚ) (s : Shape) (x y z : ℚ) : Option Tuple :=
  let worldPoint := Tuple.point x y z
  let localPoint := (Mat4.inverse s.transform).mulTuple worldPoint
  match s.localNormalAt sq localPoint with
  | none => none
  | some localNormal =>
    let worldNormal := ((Mat4.inverse s.transform).transpose).mulTuple localNormal
    some (if s.overridesToVector then worldNormal.toVector else worldNormal)

/-- Embeds `Shape::normal_at` (default method of `shapes/mod.rs`, and the
overriding versions in `cube.rs`/`cylinder.rs`/`cone.rs`): the raw world
normal, normalized. -/
def Shape.normalAt (sq : ℚ → ℚ) (s : Shape) (x y z : ℚ) : Option Tuple :=
  (s.worldNormalRaw sq x y z).map (Tuple.normalize sq)

/-- Derived per-hit state (`Computations` in `intersection.rs`). -/
structure Computations where
  t : ℚ
  object : Shape
  point : Tuple
  overPoint : Tuple
  underPoint : Tuple
  eyev : Tuple
  normalv : Tuple
  reflectv : Tuple
  n1 : ℚ
  n2 : ℚ
  inside : Bool
deriving Repr

/-- Refractive index of the object on top of the containment stack, or 1.0
(vacuum) when the stack is empty. The Rust `Vec` is pushed at the back and
read with `last()`; the list here is pushed at the front and read at the
head, which is the same stack. -/
def stackTopRefractive : List Shape → ℚ
  | [] => 1
  | c :: _ => c.material.refractiveIndex

/-- One stack update of the containment loop: if `i.object` is already on
the stack (by shape identity), remove it (all copies, via `filter`);
otherwise push it. -/
def containersStep (containers : List Shape) (obj : Shape) : List Shape :=
  if containers.any fun s => s.shapeEq obj then
    containers.filter fun s => !(s.shapeEq obj)
  else obj :: containers

/-- The `for intersection in intersections` loop of `prepare_computations`
computing `(n1, n2)`: when the walked intersection compares equal to the
target hit (under `Intersection`'s `PartialEq`), `n1` is read from the
stack top before the update and `n2` after it, and the walk stops; if the
walk exhausts the list without a match, `n1` and `n2` keep their
initial value `0.0`. -/
def nsLoop (self : Intersection) : List Intersection → List Shape → ℚ × ℚ
  | [], _ => (0, 0)
  | i :: rest, containers =>
    let n1 := stackTopRefractive containers
    let containersNew := containersStep containers i.object
    if Intersection.peq i self then (n1, stackTopRefractive containersNew)
    else nsLoop self rest containersNew

/-- Embeds `Intersection::prepare_computations`. Returns `none` when `normal_at`
panics (group primitive). Note the source computes `reflectv` from the
normal before the inside-flip. -/
def prepareComputations (sq : ℚ → ℚ) (self : Intersection) (ray : Ray)
    (intersections : List Intersection) : Option Computations :=
  let point := ray.position self.t
  let eyev := -ray.direction
  match Shape.normalAt sq self.object point.x point.y point.z with
  | none => none
  | some normalv0 =>
    let reflectv := ray.direction.reflect normalv0
    let inside : Bool := normalv0.dot eyev < 0
    let normalv := if inside then -normalv0 else normalv0
    let ns := nsLoop self intersections []
    some
      { t := self.t
        object := self.object
        point := point
        overPoint := point + normalv * marginEpsilon
        underPoint := point - normalv * marginEpsilon
        eyev := eyev
        normalv := normalv
        reflectv := reflectv
        n1 := ns.1
        n2 := ns.2
        inside := inside }

/-- Embeds `Computations::schlick`. `(1.0 - cos).powf(5.0)` is embedded as the
fifth power (IEEE `pow` with an integral exponent). -/
def Computations.schlick (sq : ℚ → ℚ) (c : Computations) : ℚ :=
  let cos := c.eyev.dot c.normalv
  if c.n1 > c.n2 then
    let n := c.n1 / c.n2
    let sin2T := n ^ 2 * (1 - cos ^ 2)
    if sin2T > 1 then 1
    else
      let cosT := sq (1 - sin2T)
      let r0 := ((c.n1 - c.n2) / (c.n1 + c.n2)) ^ 2
      r0 + (1 - r0) * (1 - cosT) ^ 5
  else
    let r0 := ((c.n1 - c.n2) / (c.n1 + c.n2)) ^ 2
    r0 + (1 - r0) * (1 - cos) ^ 5

/-- A point light (`PointLight` in `lights.rs`). -/
structure PointLight where
  position : Tuple
  intensity : Color
deriving DecidableEq, Repr

/-- Embeds `light_behind_surface` from `materials.rs`. -/
def lightBehindSurface (lightDotNormal : ℚ) : Bool := lightDotNormal < 0

/-- Embeds `Material::lighting` (Phong + pattern). Pattern sampling
(`pattern.pattern_at_shape(object, point)`) is supplied as the function
`patternAtShape` on opaque pattern identities; `powf` is the oracle for
`reflect_dot_eye.powf(shininess)`. -/
def Material.lighting (patternAtShape : ℕ → Shape → Tuple → Color)
    (powf : ℚ → ℚ → ℚ) (sq : ℚ → ℚ) (m : Material) (object : Shape)
    (light : PointLight) (point eyev normalv : Tuple) (inShadow : Bool) : Color :=
  let color :=
    match m.pattern with
    | some p => patternAtShape p object point
    | none => m.color
  let effectiveColor := color * light.intensity
  let lightv := (light.position - point).normalize sq
  let ambient := effectiveColor * m.ambient
  if inShadow then ambient
  else
    let lightDotNormal := lightv.dot normalv
    let ds : Color × Color :=
      if lightBehindSurface lightDotNormal then (Color.BLACK, Color.BLACK)
      else
        let reflectv := (-lightv).reflect normalv
        let reflectDotEye := reflectv.dot eyev
        (effectiveColor * m.diffuse * lightDotNormal,
          if reflectDotEye ≤ 0 then Color.BLACK
          else
            let factor := powf reflectDotEye m.shininess
            light.intensity * m.specular * factor)
    ambient + ds.1 + ds.2

/-- The scene (`World` in `world.rs`): one light source plus the shapes. -/
structure World where
  lightSource : PointLight
  objects : List Shape
deriving Repr

/-- Embeds `World::intersect`: flat-map `shape.intersect` over all objects and sort
ascending by `t`. -/
def World.intersect (sq : ℚ → ℚ) (w : World) (ray : Ray) : List Intersection :=
  sortByT ((w.objects.map fun o => Shape.intersect sq o ray).flatten)

/-- Embeds `World::is_shadowed`. -/
def World.isShadowed (sq : ℚ → ℚ) (w : World) (point : Tuple) : Bool :=
  let v := w.lightSource.position - point
  let distance := v.magnitude sq
  let direction := v.normalize sq
  let r : Ray := ⟨point, direction⟩
  match hit (w.intersect sq r) with
  | some h => h.t < distance
  | none => false

/-- Body of `World::reflected_color`, abstracted over the recursive
`color_at` continuation: black when the material is not reflective (below
the margin epsilon) or the depth budget is exhausted, else the color along
the reflection ray from the over-point, scaled by `reflective`. -/
def World.reflectedColorAux (recur : Ray → Option Color) (comps : Computations)
    (remaining : ℕ) : Option Color :=
  if comps.object.material.reflective < marginEpsilon ∨ remaining = 0 then some Color.BLACK
  else
    (recur ⟨comps.overPoint, comps.reflectv⟩).map
      fun c => c * comps.object.material.reflective

/-- Body of `World::refracted_color`, abstracted over the recursive
`color_at` continuation: black when the material is not transparent (at or
below the margin epsilon) or the depth budget is exhausted or under total
internal reflection, else Snell's law from the under-point, scaled by
`transparency`. -/
def World.refractedColorAux (sq : ℚ → ℚ) (recur : Ray → Option Color)
    (comps : Computations) (remaining : ℕ) : Option Color :=
  if comps.object.material.transparency ≤ marginEpsilon ∨ remaining = 0 then some Color.BLACK
  else
    let nRatio := comps.n1 / comps.n2
    let cosI := comps.eyev.dot comps.normalv
    let sin2T := nRatio ^ 2 * (1 - cosI ^ 2)
    if sin2T > 1 then some Color.BLACK
    else
      let cosT := sq (1 - sin2T)
      let direction := comps.normalv * (nRatio * cosI - cosT) - comps.eyev * nRatio
      (recur ⟨comps.underPoint, direction⟩).map
        fun c => c * comps.object.material.transparency

/-- Body of `World::shade_hit`, abstracted over the recursive `color_at`
continuation: surface lighting at the over-point with the shadow test, plus
the reflected and refracted contributions, Schlick-blended when the
material is both reflective and transparent. -/
def World.shadeHitAux (patternAtShape : ℕ → Shape → Tuple → Color)
    (powf : ℚ → ℚ → ℚ) (sq : ℚ → ℚ) (w : World) (recur : Ray → Option Color)
    (comps : Computations) (remaining : ℕ) : Option Color :=
  let shadowed := w.isShadowed sq comps.overPoint
  let material := comps.object.material
  let surface := material.lighting patternAtShape powf sq comps.object w.lightSource
    comps.overPoint comps.eyev comps.normalv shadowed
  match World.reflectedColorAux recur comps remaining,
      World.refractedColorAux sq recur comps remaining with
  | some reflected, some refracted =>
    if material.reflective > 0 ∧ material.transparency > 0 then
      let reflectance := comps.schlick sq
      some (surface + reflected * reflectance + refracted * (1 - reflectance))
    else some (surface + reflected + refracted)
  | _, _ => none

/-- Body of `World::color_at`, abstracted over the recursive continuation:
black when the ray's intersection list has no hit, else
`prepare_computations` on the FULL intersection list followed by
`shade_hit`. -/
def World.colorAtStep (patternAtShape : ℕ → Shape → Tuple → Color)
    (powf : ℚ → ℚ → ℚ) (sq : ℚ → ℚ) (w : World) (recur : Ray → Option Color)
    (ray : Ray) (remaining : ℕ) : Option Color :=
  let intersections := w.intersect sq ray
  match hit intersections with
  | some h =>
    match prepareComputations sq h ray intersections with
    | some comps => World.shadeHitAux patternAtShape powf sq w recur comps remaining
    | none => none
  | none => some Color.BLACK

/-- Embeds `World::color_at` with the depth counter as structural fuel. At depth 0
the recursive continuation is unreachable (`reflected_color` and
`refracted_color` both return early when `remaining == 0`); it is
instantiated with the always-`none` function to keep that visible. -/
def World.colorAt (patternAtShape : ℕ → Shape → Tuple → Color)
    (powf : ℚ → ℚ → ℚ) (sq : ℚ → ℚ) (w : World) : ℕ → Ray → Option Color
  | 0, ray => World.colorAtStep patternAtShape powf sq w (fun _ => none) ray 0
  | n + 1, ray =>
    World.colorAtStep patternAtShape powf sq w
      (World.colorAt patternAtShape powf sq w n) ray (n + 1)

/-- Embeds `World::reflected_color`: the recursive continuation is
`color_at(..., remaining - 1)`. -/
def World.reflectedColor (patternAtShape : ℕ → Shape → Tuple → Color)
    (powf : ℚ → ℚ → ℚ) (sq : ℚ → ℚ) (w : World) (comps : Computations)
    (remaining : ℕ) : Option Color :=
  World.reflectedColorAux
    (fun ray => World.colorAt patternAtShape powf sq w (remaining - 1) ray)
    comps remaining

/-- Embeds `World::refracted_color`: the recursive continuation is
`color_at(..., remaining - 1)`. -/
def World.refractedColor (patternAtShape : ℕ → Shape → Tuple → Color)
    (powf : ℚ → ℚ → ℚ) (sq : ℚ → ℚ) (w : World) (comps : Computations)
    (remaining : ℕ) : Option Color :=
  World.refractedColorAux sq
    (fun ray => World.colorAt patternAtShape powf sq w (remaining - 1) ray)
    comps remaining

/-- Embeds `World::shade_hit`. -/
def World.shadeHit (patternAtShape : ℕ → Shape → Tuple → Color)
    (powf : ℚ → ℚ → ℚ) (sq : ℚ → ℚ) (w : World) (comps : Computations)
    (remaining : ℕ) : Option Color :=
  World.shadeHitAux patternAtShape powf sq w
    (fun ray => World.colorAt patternAtShape powf sq w (remaining - 1) ray)
    comps remaining

/-- The fold step of `hit` (`min_by` keeping the first of equal minima). -/
def hitStep (acc : Option Intersection) (i : Intersection) : Option Intersection :=
  match acc with
  | none => some i
  | some m => if i.t < m.t then some i else some m

/-- Outer glass sphere `A` of the three-concentric-spheres refraction test:
`Sphere::glass().with_transform(scaling(2,2,2))
.with_material(Material::default().refractive_index(1.5))`
(the builder replaces the whole material). -/
def c1SphereA : Shape :=
  .sphere 0 (Mat4.scaling 2 2 2) { Material.default with refractiveIndex := 3/2 }

/-- Middle sphere `B`: translation `(0,0,-0.25)`, refractive index 2.0. -/
def c1SphereB : Shape :=
  .sphere 1 (Mat4.translation 0 0 (-1/4)) { Material.default with refractiveIndex := 2 }

/-- Inner sphere `C`: translation `(0,0,0.25)`, refractive index 2.5. -/
def c1SphereC : Shape :=
  .sphere 2 (Mat4.translation 0 0 (1/4)) { Material.default with refractiveIndex := 5/2 }

/-- The ray through all three concentric spheres: origin `(0,0,-4)`,
direction `(0,0,1)`. -/
def c1Ray : Ray := ⟨Tuple.point 0 0 (-4), Tuple.vector 0 0 1⟩

/-- The six ordered intersections of `c1Ray` with spheres `A`, `B`, `C`,
`B`, `C`, `A` at `t = 2, 2.75, 3.25, 4.75, 5.25, 6`. -/
def c1Xs : List Intersection :=
  [⟨2, c1SphereA⟩, ⟨11/4, c1SphereB⟩, ⟨13/4, c1SphereC⟩,
   ⟨19/4, c1SphereB⟩, ⟨21/4, c1SphereC⟩, ⟨6, c1SphereA⟩]

/-- A sqrt oracle that is exact at 1 (the only value these scenarios take a
square root of). -/
def sqOne : ℚ → ℚ := fun q => if q = 1 then 1 else 0

/-- Ray at the origin looking straight up: origin `(0,0,0)`, direction
`(0,1,0)` (the perpendicular-viewing-angle Schlick scenario). -/
def perpRay : Ray := ⟨Tuple.point 0 0 0, Tuple.vector 0 1 0⟩

/-- Intersections `t = ±1` of `perpRay` with a glass sphere. -/
def glassXs : List Intersection :=
  [⟨-1, Shape.glassSphere 0⟩, ⟨1, Shape.glassSphere 0⟩]

/-- Intersections `t = ±1` of `perpRay` with a default sphere
(refractive index 1.0). -/
def defaultXs : List Intersection :=
  [⟨-1, Shape.defaultSphere 0⟩, ⟨1, Shape.defaultSphere 0⟩]

/-- A total-internal-reflection state: `n1 = 2 > n2 = 1` with a grazing
eye/normal pair whose dot product is 0, so `sin2_t = 4 > 1`. -/
def tirComps : Computations :=
  ⟨0, Shape.defaultSphere 0, Tuple.point 0 0 0, Tuple.point 0 0 0, Tuple.point 0 0 0,
   Tuple.vector 1 0 0, Tuple.vector 0 1 0, Tuple.vector 0 0 0, 2, 1, false⟩

/-- A sqrt oracle exact at `1/4` (used by the scaled-sphere normal witness). -/
def sqQuarter : ℚ → ℚ := fun q => if q = 1/4 then 1/2 else 0

/-- A sphere scaled by `(2,2,2)` (id 0, default material). -/
def scaledSphere : Shape := .sphere 0 (Mat4.scaling 2 2 2) Material.default

/-- A sqrt oracle exact at 4 and 0 (cylinder/cone discriminants below). -/
def sqC7 : ℚ → ℚ := fun q => if q = 4 then 2 else 0

/-- A cylinder capped to `y ∈ [1, 2]`, not closed (id 0, identity
transform, default material). -/
def c7Cylinder : Shape := .cylinder 0 Mat4.identity Material.default 1 2 false

/-- A ray at height `y = 2` (exactly the cylinder's `maximum`): origin
`(0,2,-5)`, direction `(0,0,1)`. Its body roots are `t = 4` and `t = 6`,
both with `y = 2`. -/
def c7Ray : Ray := ⟨Tuple.point 0 2 (-5), Tuple.vector 0 0 1⟩

/-- A cylinder capped to `y ∈ [1, 2]` with a ray at height `y = 1.5`
through its middle (witness scenario): origin `(0, 1.5, -5)`,
direction `(0,0,1)`. -/
def c7MidRay : Ray := ⟨Tuple.point 0 (3/2) (-5), Tuple.vector 0 0 1⟩

/-- A cone capped to `y ∈ [-1, 1]`, not closed (id 1). -/
def c7Cone : Shape := .cone 1 Mat4.identity Material.default (-1) 1 false

/-- Ray along `z` through the cone tip plane: origin `(0,0,-5)`,
direction `(0,0,1)`; the cone body quadratic has the double root `t = 5`. -/
def c7ConeRay : Ray := ⟨Tuple.point 0 0 (-5), Tuple.vector 0 0 1⟩

/-- Pattern sampler returning black for every pattern id (recursion
witnesses never sample a pattern). -/
def blackPatternAtShape : ℕ → Shape → Tuple → Color := fun _ _ _ => Color.BLACK

/-- Trivial `powf` oracle. -/
def zeroPowf : ℚ → ℚ → ℚ := fun _ _ => 0

/-- Trivial sqrt oracle. -/
def zeroSq : ℚ → ℚ := fun _ => 0

/-- A world with the default light and NO objects: every ray misses. -/
def emptyWorld : World := ⟨⟨Tuple.point (-10) 10 (-10), ⟨1, 1, 1⟩⟩, []⟩

/-- Ray from `(0,0,-5)` along `+z`. -/
def zRay : Ray := ⟨Tuple.point 0 0 (-5), Tuple.vector 0 0 1⟩

/-- An arbitrary concrete `Computations` value for the depth-0 witnesses. -/
def anyComps : Computations :=
  ⟨0, Shape.defaultSphere 0, Tuple.point 0 0 0, Tuple.point 0 0 0, Tuple.point 0 0 0,
   Tuple.vector 0 0 0, Tuple.vector 0 0 0, Tuple.vector 0 0 0, 0, 0, false⟩

/-- Intersection list with `t` values `5, 7, -3, 2` on a default sphere. -/
def c2Xs : List Intersection :=
  [⟨5, Shape.defaultSphere 0⟩, ⟨7, Shape.defaultSphere 0⟩,
   ⟨-3, Shape.defaultSphere 0⟩, ⟨2, Shape.defaultSphere 0⟩]

/-- An intersection list none of whose elements compares equal to the
target hit `⟨1, defaultSphere 0⟩` (the only element has `t = 2`). -/
def c10Xs : List Intersection := [⟨2, Shape.defaultSphere 0⟩]

/-- Componentwise unfolding of tuple subtraction. -/
@[simp] theorem Tuple.sub_def (a b : Tuple) :
    a - b = ⟨a.x - b.x, a.y - b.y, a.z - b.z, a.w - b.w⟩ := rfl

/-- Componentwise unfolding of tuple addition. -/
@[simp] theorem Tuple.add_def (a b : Tuple) :
    a + b = ⟨a.x + b.x, a.y + b.y, a.z + b.z, a.w + b.w⟩ := rfl

/-- Componentwise unfolding of tuple negation. -/
@[simp] theorem Tuple.neg_def (a : Tuple) : -a = ⟨-a.x, -a.y, -a.z, -a.w⟩ := rfl

/-- Componentwise unfolding of tuple scaling. -/
@[simp] theorem Tuple.smul_def (a : Tuple) (k : ℚ) :
    a * k = ⟨a.x * k, a.y * k, a.z * k, a.w * k⟩ := rfl

/-- Sanity check of the adjugate inverse on a translation. -/
theorem mat4_inverse_translation_check :
    Mat4.inverse (Mat4.translation 5 (-3) 2) = Mat4.translation (-5) 3 (-2) := by
  norm_num [Mat4.inverse, Mat4.det, det3, Mat4.translation]

/-- Sanity check of the adjugate inverse on a scaling. -/
theorem mat4_inverse_scaling_check :
    Mat4.inverse (Mat4.scaling 2 3 4) = Mat4.scaling (1/2) (1/3) (1/4) := by
  norm_num [Mat4.inverse, Mat4.det, det3, Mat4.scaling]

/-- Embeds `hit` is the fold of `hitStep` over the nonnegative-`t` elements. -/
theorem hit_eq_foldl (xs : List Intersection) :
    hit xs = (xs.filter fun i => 0 ≤ i.t).foldl hitStep none := rfl

/-- Folding `hitStep` from a `some` start always yields a `some` result that
is the start or a list element, is no larger than the start, and is a lower
bound of the list. -/
theorem foldl_hitStep_some (ys : List Intersection) (m : Intersection) :
    ∃ r, ys.foldl hitStep (some m) = some r ∧ (r = m ∨ r ∈ ys) ∧ r.t ≤ m.t ∧
      ∀ j ∈ ys, r.t ≤ j.t := by
  induction ys generalizing m with
  | nil => exact ⟨m, rfl, Or.inl rfl, le_refl _, by simp⟩
  | cons y ys ih =>
    by_cases h : y.t < m.t
    · obtain ⟨r, hr, hmem, hle, hall⟩ := ih y
      refine ⟨r, ?_, ?_, ?_, ?_⟩
      · simpa [List.foldl_cons, hitStep, h] using hr
      · rcases hmem with h1 | h1
        · exact Or.inr (by simp [h1])
        · exact Or.inr (by simp [h1])
      · exact le_trans hle (le_of_lt h)
      · intro j hj
        rcases List.mem_cons.mp hj with h1 | h1
        · subst h1; exact hle
        · exact hall j h1
    · obtain ⟨r, hr, hmem, hle, hall⟩ := ih m
      refine ⟨r, ?_, ?_, ?_, ?_⟩
      · simpa [List.foldl_cons, hitStep, h] using hr
      · rcases hmem with h1 | h1
        · exact Or.inl h1
        · exact Or.inr (by simp [h1])
      · exact hle
      · intro j hj
        rcases List.mem_cons.mp hj with h1 | h1
        · subst h1; exact le_trans hle (not_lt.mp h)
        · exact hall j h1

/-- Every primitive's local normal is a pure direction: whenever
`local_normal_at` returns a vector at a point with `w = 1`, that vector has
`w = 0`. -/
theorem localNormalAt_w_eq_zero (sq : ℚ → ℚ) (s : Shape) (p : Tuple) (ln : Tuple)
    (hp : p.w = 1) (h : s.localNormalAt sq p = some ln) : ln.w = 0 := by
  cases s with
  | sphere i tr m =>
    simp [Shape.localNormalAt] at h
    subst h
    show p.w - 1 = 0
    rw [hp]; norm_num
  | plane i tr m =>
    simp [Shape.localNormalAt] at h
    subst h; rfl
  | cube i tr m =>
    simp only [Shape.localNormalAt] at h
    split at h
    · injection h with h; subst h; rfl
    · split at h
      · injection h with h; subst h; rfl
      · split at h
        · injection h with h; subst h; rfl
        · cases h
  | cylinder i tr m mn mx cl =>
    simp only [Shape.localNormalAt] at h
    split at h
    · injection h with h; subst h; rfl
    · split at h
      · injection h with h; subst h; rfl
      · injection h with h; subst h; rfl
  | cone i tr m mn mx cl =>
    simp only [Shape.localNormalAt] at h
    split at h
    · injection h with h; subst h; rfl
    · split at h
      · injection h with h; subst h; rfl
      · injection h with h; subst h; rfl
  | group i tr m cs =>
    simp [Shape.localNormalAt] at h

/-- The raw world normal keeps `w = 0`: the truncating matrix-tuple
multiplication preserves the input `w`, and the overriding shapes
additionally force it with `to_vector`. -/
theorem worldNormalRaw_w_eq_zero (sq : ℚ → ℚ) (s : Shape) (x y z : ℚ) (v : Tuple)
    (h : s.worldNormalRaw sq x y z = some v) : v.w = 0 := by
  simp only [Shape.worldNormalRaw] at h
  rcases hln : s.localNormalAt sq ((Mat4.inverse s.transform).mulTuple (Tuple.point x y z))
    with _ | ln
  · rw [hln] at h; simp at h
  · rw [hln] at h
    simp only [Option.some.injEq] at h
    have hw : ln.w = 0 := by
      refine localNormalAt_w_eq_zero sq s _ ln ?_ hln
      simp [Mat4.mulTuple, Tuple.point]
    subst h
    by_cases hov : s.overridesToVector = true
    · simp [hov, Tuple.toVector]
    · simp only [Bool.not_eq_true] at hov
      simp [hov, Mat4.mulTuple, hw]

/-- If no walked intersection compares equal to the target hit, the
containment-stack loop leaves `(n1, n2)` at their initial `(0, 0)`,
whatever the stack contents. -/
theorem nsLoop_of_no_match (self : Intersection) (xs : List Intersection)
    (h : ∀ i ∈ xs, Intersection.peq i self = false) :
    ∀ cs, nsLoop self xs cs = (0, 0) := by
  induction xs with
  | nil => intro cs; rfl
  | cons i rest ih =>
    intro cs
    have hi : Intersection.peq i self = false := h i (List.mem_cons_self i rest)
    simp only [nsLoop, hi, Bool.false_eq_true, if_false]
    exact ih (fun j hj => h j (List.mem_cons_of_mem i hj)) _

/-- On a sphere hit, `prepare_computations` always returns (the sphere
normal never panics) and its `(n1, n2)` fields are exactly the result of
the containment-stack loop over the full intersection list. -/
theorem prep_ns_of_sphere (sq : ℚ → ℚ) (self : Intersection) (ray : Ray)
    (xs : List Intersection) (i : ℕ) (tr : Mat4) (m : Material)
    (h : self.object = .sphere i tr m) :
    (prepareComputations sq self ray xs).map (fun c => (c.n1, c.n2)) =
      some (nsLoop self xs []) := by
  simp [prepareComputations, Shape.normalAt, Shape.worldNormalRaw, Shape.localNormalAt, h]

/-- C1. Refractive containment-stack algorithm of `prepare_computations`:
for the sorted six-intersection list of a ray through three concentric
glass spheres of refractive indices 1.5, 2.0, 2.5 (intersections at
`t = 2, 2.75, 3.25, 4.75, 5.25, 6` on spheres `A, B, C, B, C, A`), the
`(n1, n2)` pair computed when each of the six intersections in order is
the target hit is exactly `(1,1.5), (1.5,2), (2,2.5), (2.5,2.5),
(2.5,1.5), (1.5,1)` — for every sqrt oracle, since the loop does not
consult it. -/
theorem c1_refractive_stack_pairs (sq : ℚ → ℚ) :
    (prepareComputations sq ⟨2, c1SphereA⟩ c1Ray c1Xs).map (fun c => (c.n1, c.n2))
        = some (1, 3/2) ∧
    (prepareComputations sq ⟨11/4, c1SphereB⟩ c1Ray c1Xs).map (fun c => (c.n1, c.n2))
        = some (3/2, 2) ∧
    (prepareComputations sq ⟨13/4, c1SphereC⟩ c1Ray c1Xs).map (fun c => (c.n1, c.n2))
        = some (2, 5/2) ∧
    (prepareComputations sq ⟨19/4, c1SphereB⟩ c1Ray c1Xs).map (fun c => (c.n1, c.n2))
        = some (5/2, 5/2) ∧
    (prepareComputations sq ⟨21/4, c1SphereC⟩ c1Ray c1Xs).map (fun c => (c.n1, c.n2))
        = some (5/2, 3/2) ∧
    (prepareComputations sq ⟨6, c1SphereA⟩ c1Ray c1Xs).map (fun c => (c.n1, c.n2))
        = some (3/2, 1) := by
  refine ⟨?_, ?_, ?_, ?_, ?_, ?_⟩ <;>
  · rw [prep_ns_of_sphere sq _ _ _ _ _ _ rfl]
    norm_num [nsLoop, c1Xs, c1SphereA, c1SphereB, c1SphereC, Intersection.peq,
      containersStep, stackTopRefractive, Shape.shapeEq, Shape.id, Shape.material,
      Shape.transform, Material.default, Mat4.peq, Mat4.scaling, Mat4.translation,
      floatEq, qabs, EPSILON]

/-- C2. `hit` returns `none` exactly when every intersection has negative
`t`; and when it returns an intersection, that intersection is in the list,
has nonnegative `t` (so `t = 0` counts as a hit), and its `t` is minimal
among the nonnegative `t` values of the list. -/
theorem c2_hit_spec (xs : List Intersection) :
    (hit xs = none ↔ ∀ i ∈ xs, i.t < 0) ∧
    (∀ i, hit xs = some i →
      i ∈ xs ∧ 0 ≤ i.t ∧ ∀ j ∈ xs, 0 ≤ j.t → i.t ≤ j.t) := by
  rw [hit_eq_foldl]
  rcases hys : xs.filter (fun i => 0 ≤ i.t) with _ | ⟨y, ys⟩
  · rw [hys]
    constructor
    · simp only [List.foldl_nil]
      constructor
      · intro _ i hi
        by_contra hneg
        have : i ∈ xs.filter (fun i => 0 ≤ i.t) := by
          rw [List.mem_filter]
          exact ⟨hi, by simpa using not_lt.mp hneg⟩
        rw [hys] at this; simp at this
      · intro _; trivial
    · intro i hi
      simp [List.foldl_nil] at hi
  · rw [hys]
    have hfold : (y :: ys).foldl hitStep none = ys.foldl hitStep (some y) := rfl
    obtain ⟨r, hr, hmem, hle, hall⟩ := foldl_hitStep_some ys y
    rw [hfold, hr]
    have hy_mem : y ∈ xs.filter (fun i => 0 ≤ i.t) := by rw [hys]; simp
    have hr_filter : r ∈ xs.filter (fun i => 0 ≤ i.t) := by
      rcases hmem with h1 | h1
      · rw [h1]; exact hy_mem
      · rw [hys]; simp [h1]
    have hr_mem : r ∈ xs := (List.mem_filter.mp hr_filter).1
    have hr_nonneg : (0:ℚ) ≤ r.t := by
      have := (List.mem_filter.mp hr_filter).2
      simpa using this
    constructor
    · constructor
      · intro h; cases h
      · intro hall_neg
        exfalso
        have hy_in : y ∈ xs := (List.mem_filter.mp hy_mem).1
        have : (0:ℚ) ≤ y.t := by simpa using (List.mem_filter.mp hy_mem).2
        exact absurd this (not_le.mpr (hall_neg y hy_in))
    · intro i hi
      injection hi with hi; subst hi
      refine ⟨hr_mem, hr_nonneg, ?_⟩
      intro j hj hjt
      have hj_filter : j ∈ xs.filter (fun i => 0 ≤ i.t) := by
        rw [List.mem_filter]; exact ⟨hj, by simpa using hjt⟩
      rw [hys] at hj_filter
      rcases List.mem_cons.mp hj_filter with h1 | h1
      · subst h1; exact hle
      · exact hall j h1

/-- Witness for C2 at the list with `t` values `5, 7, -3, 2`: the theorem
applied with `hit = some ⟨2, ..⟩` (evaluated concretely) yields membership,
nonnegativity and minimality of `t = 2`. -/
theorem c2_hit_spec_witness :
    (⟨2, Shape.defaultSphere 0⟩ : Intersection) ∈ c2Xs ∧
    (0:ℚ) ≤ (2:ℚ) ∧ ∀ j ∈ c2Xs, 0 ≤ j.t → (2:ℚ) ≤ j.t := by
  have h := (c2_hit_spec c2Xs).2 ⟨2, Shape.defaultSphere 0⟩
    (by norm_num [hit, c2Xs, List.filter, List.foldl])
  exact ⟨h.1, h.2.1, h.2.2⟩

/-- C3. Recursion-termination invariant: `color_at` returns black whenever
the ray's intersection list has no hit, at every depth; and at depth 0 both
`reflected_color` and `refracted_color` return black for every
`Computations` value, whatever the material. -/
theorem c3_recursion_termination :
    (∀ (patternAtShape : ℕ → Shape → Tuple → Color) (powf : ℚ → ℚ → ℚ) (sq : ℚ → ℚ)
        (w : World) (ray : Ray) (remaining : ℕ),
      hit (World.intersect sq w ray) = none →
      World.colorAt patternAtShape powf sq w remaining ray = some Color.BLACK) ∧
    (∀ (patternAtShape : ℕ → Shape → Tuple → Color) (powf : ℚ → ℚ → ℚ) (sq : ℚ → ℚ)
        (w : World) (comps : Computations),
      World.reflectedColor patternAtShape powf sq w comps 0 = some Color.BLACK) ∧
    (∀ (patternAtShape : ℕ → Shape → Tuple → Color) (powf : ℚ → ℚ → ℚ) (sq : ℚ → ℚ)
        (w : World) (comps : Computations),
      World.refractedColor patternAtShape powf sq w comps 0 = some Color.BLACK) := by
  refine ⟨?_, ?_, ?_⟩
  · intro pat powf sq w ray remaining h
    cases remaining with
    | zero => simp [World.colorAt, World.colorAtStep, h]
    | succ n => simp [World.colorAt, World.colorAtStep, h]
  · intro pat powf sq w comps
    simp [World.reflectedColor, World.reflectedColorAux]
  · intro pat powf sq w comps
    simp [World.refractedColor, World.refractedColorAux]

/-- Witness for C3: the empty world misses every ray (`hit = none` holds by
computation), so `color_at` at depth 5 is black, and the two depth-0 calls
are black at a concrete `Computations` value. -/
theorem c3_recursion_termination_witness :
    World.colorAt blackPatternAtShape zeroPowf zeroSq emptyWorld 5 zRay
        = some Color.BLACK ∧
    World.reflectedColor blackPatternAtShape zeroPowf zeroSq emptyWorld anyComps 0
        = some Color.BLACK ∧
    World.refractedColor blackPatternAtShape zeroPowf zeroSq emptyWorld anyComps 0
        = some Color.BLACK :=
  ⟨c3_recursion_termination.1 blackPatternAtShape zeroPowf zeroSq emptyWorld zRay 5 rfl,
   c3_recursion_termination.2.1 blackPatternAtShape zeroPowf zeroSq emptyWorld anyComps,
   c3_recursion_termination.2.2 blackPatternAtShape zeroPowf zeroSq emptyWorld anyComps⟩

/-- C4 counterexample. The claim "equality of `Intersection` values compares
the owning shape, so two intersections with the same `t` but belonging to
two different shapes are unequal" is FALSE on the code: two DISTINCT default
spheres (different identities, `shape_eq` false) with the same default
material and transform produce intersections at `t = 5` that the code's
`PartialEq` declares EQUAL. -/
theorem c4_counterexample :
    Shape.shapeEq (Shape.defaultSphere 0) (Shape.defaultSphere 1) = false ∧
    (Shape.defaultSphere 0).id ≠ (Shape.defaultSphere 1).id ∧
    Intersection.peq ⟨5, Shape.defaultSphere 0⟩ ⟨5, Shape.defaultSphere 1⟩ = true := by
  refine ⟨by norm_num [Shape.shapeEq, Shape.defaultSphere, Shape.id], ?_, ?_⟩
  · norm_num [Shape.defaultSphere, Shape.id]
  · norm_num [Intersection.peq, Shape.defaultSphere, Shape.material, Shape.transform,
      Material.default, Mat4.peq, Mat4.identity, floatEq, qabs, EPSILON]

/-- C4 amended. Equality of `Intersection` values compares `t` (exactly)
together with the owning shapes' materials (exactly) and transforms (with
the epsilon comparison) — but NOT the shape identity: it holds if and only
if those three comparisons succeed. -/
theorem c4_intersection_eq_by_material_and_transform (a b : Intersection) :
    Intersection.peq a b = true ↔
      (a.t = b.t ∧ a.object.material = b.object.material ∧
        Mat4.peq a.object.transform b.object.transform = true) := by
  simp [Intersection.peq, Bool.and_eq_true, beq_iff_eq, and_assoc]

/-- Witness for the amended C4: the characterization applied at `t = 5` on
two distinct default spheres. -/
theorem c4_intersection_eq_witness :
    Intersection.peq ⟨5, Shape.defaultSphere 2⟩ ⟨5, Shape.defaultSphere 3⟩ = true :=
  (c4_intersection_eq_by_material_and_transform _ _).mpr ⟨rfl, rfl, by
    norm_num [Shape.defaultSphere, Shape.transform, Mat4.peq, Mat4.identity, floatEq,
      qabs, EPSILON]⟩

/-- C5. `normal_at` returns a unit-length pure direction: whenever the raw
world normal (local normal through the inverse-transpose, with the
`to_vector` step of the overriding shapes) is some nonzero `v`, and the
sqrt oracle squares back at `v`'s sum of squares, the returned normal is
`v` normalized, has `w = 0`, and has squared magnitude exactly 1. -/
theorem c5_normal_at_unit_pure_direction (sq : ℚ → ℚ) (s : Shape) (x y z : ℚ)
    (v : Tuple) (hv : s.worldNormalRaw sq x y z = some v)
    (hnz : v.sumsq ≠ 0)
    (hsq : sq v.sumsq * sq v.sumsq = v.sumsq) :
    Shape.normalAt sq s x y z = some (v.normalize sq) ∧
    (v.normalize sq).w = 0 ∧ (v.normalize sq).sumsq = 1 := by
  have hw : v.w = 0 := worldNormalRaw_w_eq_zero sq s x y z v hv
  have hm : sq v.sumsq ≠ 0 := by
    intro h0
    exact hnz (by rw [← hsq, h0, mul_zero])
  refine ⟨by simp [Shape.normalAt, hv], ?_, ?_⟩
  · simp [Tuple.normalize, Tuple.magnitude, hw]
  · show (v.normalize sq).dot (v.normalize sq) = 1
    have hexp : (v.normalize sq).dot (v.normalize sq)
        = v.sumsq / (sq v.sumsq * sq v.sumsq) := by
      simp only [Tuple.normalize, Tuple.magnitude, Tuple.dot, Tuple.sumsq]
      field_simp
    rw [hexp, hsq, div_self hnz]

/-- Witness for C5: the sphere scaled by `(2,2,2)` at world point `(0,0,2)`
has raw world normal `(0,0,1/2,0)` with sum of squares `1/4`, and
`sqQuarter` is an exact square root there; the resulting normal is the unit
pure direction `(0,0,1)`. -/
theorem c5_normal_at_witness :
    Shape.normalAt sqQuarter scaledSphere 0 0 2
        = some (Tuple.normalize sqQuarter ⟨0, 0, 1/2, 0⟩) ∧
    (Tuple.normalize sqQuarter ⟨0, 0, 1/2, 0⟩).w = 0 ∧
    (Tuple.normalize sqQuarter ⟨0, 0, 1/2, 0⟩).sumsq = 1 :=
  c5_normal_at_unit_pure_direction sqQuarter scaledSphere 0 0 2 ⟨0, 0, 1/2, 0⟩
    (by norm_num [Shape.worldNormalRaw, Shape.localNormalAt, Shape.overridesToVector,
      Shape.transform, Mat4.inverse, Mat4.det, det3, Mat4.scaling, Mat4.mulTuple,
      Mat4.transpose, Tuple.point, scaledSphere])
    (by norm_num [Tuple.sumsq, Tuple.dot])
    (by norm_num [Tuple.sumsq, Tuple.dot, sqQuarter])

/-- C6 counterexample. The claim that at a perpendicular viewing angle with
`n1 = n2 = 1.0` (a DEFAULT sphere) the Schlick approximation returns about
0.04 is FALSE on the code: in that exact scenario (ray at the origin looking
up through a default sphere, hit at `t = 1`) the computed state has
`n1 = n2 = 1` and `eyev = normalv = (0,-1,0)`, and `schlick` returns
exactly 0 (with `r0 = 0` and `cos = 1`), not ≈ 0.04. -/
theorem c6_counterexample :
    ((prepareComputations sqOne ⟨1, Shape.defaultSphere 0⟩ perpRay defaultXs).map
      (fun c => (c.n1, c.n2, c.eyev, c.normalv))) =
        some (1, 1, Tuple.vector 0 (-1) 0, Tuple.vector 0 (-1) 0) ∧
    ((prepareComputations sqOne ⟨1, Shape.defaultSphere 0⟩ perpRay defaultXs).map
      (Computations.schlick sqOne)) = some 0 ∧
    sqOne 1 = 1 ∧ (0 : ℚ) ≠ 4/100 := by
  refine ⟨?_, ?_, by norm_num [sqOne], by norm_num⟩ <;>
  norm_num [prepareComputations, Computations.schlick, Shape.normalAt,
    Shape.worldNormalRaw, Shape.localNormalAt, Shape.overridesToVector, Shape.transform,
    Shape.material, Shape.id, Shape.defaultSphere, Material.default, Mat4.inverse,
    Mat4.det, det3, Mat4.identity, Mat4.mulTuple, Mat4.transpose, Mat4.peq, floatEq,
    qabs, EPSILON, marginEpsilon, Tuple.point, Tuple.vector, Tuple.dot, Tuple.normalize,
    Tuple.magnitude, Tuple.sumsq, Tuple.reflect, Ray.position, perpRay, defaultXs,
    nsLoop, containersStep, stackTopRefractive, Shape.shapeEq, Intersection.peq, sqOne]

/-- C6 amended. The Schlick approximation returns exactly 1 under total
internal reflection (`n1 > n2` and `sin2_t > 1`) for every state and every
sqrt oracle; and at the perpendicular viewing angle the 0.04 reflectance
arises for the GLASS sphere (the hit at `t = 1` exits glass into vacuum,
`n1 = 1.5, n2 = 1.0`), where `schlick` returns exactly `1/25 = 0.04` for
every sqrt oracle exact at 1. -/
theorem c6_schlick_tir_and_perpendicular :
    (∀ (sq : ℚ → ℚ) (c : Computations), c.n1 > c.n2 →
      (c.n1 / c.n2) ^ 2 * (1 - (c.eyev.dot c.normalv) ^ 2) > 1 →
      Computations.schlick sq c = 1) ∧
    (∀ sq : ℚ → ℚ, sq 1 = 1 →
      ((prepareComputations sq ⟨1, Shape.glassSphere 0⟩ perpRay glassXs).map
        (Computations.schlick sq)) = some (1/25)) := by
  constructor
  · intro sq c h1 h2
    simp only [Computations.schlick]
    rw [if_pos h1, if_pos h2]
  · intro sq hsq
    norm_num [prepareComputations, Computations.schlick, Shape.normalAt,
      Shape.worldNormalRaw, Shape.localNormalAt, Shape.overridesToVector, Shape.transform,
      Shape.material, Shape.id, Shape.glassSphere, Material.default, Mat4.inverse,
      Mat4.det, det3, Mat4.identity, Mat4.mulTuple, Mat4.transpose, Mat4.peq, floatEq,
      qabs, EPSILON, marginEpsilon, Tuple.point, Tuple.vector, Tuple.dot, Tuple.normalize,
      Tuple.magnitude, Tuple.sumsq, Tuple.reflect, Ray.position, perpRay, glassXs,
      nsLoop, containersStep, stackTopRefractive, Shape.shapeEq, Intersection.peq, hsq]

/-- Witness for the amended C6: total internal reflection at a concrete
state with `n1 = 2 > n2 = 1` and grazing cosine 0 gives reflectance 1, and
the glass-sphere perpendicular scenario with the concrete oracle `sqOne`
gives exactly `1/25`. -/
theorem c6_schlick_witness :
    Computations.schlick zeroSq tirComps = 1 ∧
    ((prepareComputations sqOne ⟨1, Shape.glassSphere 0⟩ perpRay glassXs).map
      (Computations.schlick sqOne)) = some (1/25) :=
  ⟨c6_schlick_tir_and_perpendicular.1 zeroSq tirComps
      (by norm_num [tirComps])
      (by norm_num [tirComps, Tuple.dot, Tuple.vector]),
   c6_schlick_tir_and_perpendicular.2 sqOne (by norm_num [sqOne])⟩

/-- C7 counterexample. The claim that a body-quadratic root whose `y`
equals `minimum` or `maximum` exactly is included is FALSE on the code: for
the cylinder capped to `[1, 2]` and the non-axis-parallel ray at height
`y = 2` (roots `t = 4, 6`, both with `y = 2 = maximum`, and `sqC7` an exact
square root of the discriminant 4), `local_intersect` returns the EMPTY
list — the strict filter `minimum < y && y < maximum` rejects boundary
roots. (This matches the repo's own test expecting 0 intersections.) -/
theorem c7_counterexample :
    cylinderLocalIntersect sqC7 c7Cylinder 1 2 false c7Ray = [] ∧
    approxEq (cylA c7Ray) 0 = false ∧
    sqC7 (cylDisc c7Ray) * sqC7 (cylDisc c7Ray) = cylDisc c7Ray ∧
    cylT0 sqC7 c7Ray = 4 ∧ rayY c7Ray 4 = 2 := by
  norm_num [cylinderLocalIntersect, cylinderIntersectCaps, cylA, cylB, cylC, cylDisc,
    cylR0, cylR1, cylT0, cylT1, rayY, approxEq, qabs, f32MachineEpsilon, checkCapCyl,
    c7Cylinder, c7Ray, Tuple.point, Tuple.vector, sqC7]

/-- C7 amended. For a cylinder that is not closed and a ray not parallel to
the axis with nonnegative discriminant, a body root `t` is in the
`local_intersect` result if and only if it is one of the two computed roots
and its `y` lies STRICTLY between `minimum` and `maximum` (boundary roots
are excluded); and the cone behaves the same way under its capping scheme. -/
theorem c7_body_roots_strict_interval :
    (∀ (sq : ℚ → ℚ) (s : Shape) (mn mx : ℚ) (ray : Ray),
      approxEq (cylA ray) 0 = false → ¬ cylDisc ray < 0 → ∀ t : ℚ,
      ((⟨t, s⟩ : Intersection) ∈ cylinderLocalIntersect sq s mn mx false ray ↔
        ((t = cylT0 sq ray ∨ t = cylT1 sq ray) ∧
          mn < rayY ray t ∧ rayY ray t < mx))) ∧
    (∀ (sq : ℚ → ℚ) (s : Shape) (mn mx : ℚ) (ray : Ray),
      ¬ qabs (coneA ray) ≤ marginEpsilon → ¬ coneDisc ray < 0 → ∀ t : ℚ,
      ((⟨t, s⟩ : Intersection) ∈ coneLocalIntersect sq s mn mx false ray ↔
        ((t = coneT0 sq ray ∨ t = coneT1 sq ray) ∧
          mn < rayY ray t ∧ rayY ray t < mx))) := by
  constructor
  · intro sq s mn mx ray ha hd t
    simp only [cylinderLocalIntersect, ha, Bool.false_eq_true, if_false, hd,
      cylinderIntersectCaps, Bool.not_false, Bool.true_or, if_true]
    by_cases h0 : mn < rayY ray (cylT0 sq ray) ∧ rayY ray (cylT0 sq ray) < mx <;>
    by_cases h1 : mn < rayY ray (cylT1 sq ray) ∧ rayY ray (cylT1 sq ray) < mx <;>
    simp only [h0, h1, if_true, if_false, List.nil_append, List.mem_append,
      List.mem_singleton, List.mem_cons, List.not_mem_nil, Intersection.mk.injEq,
      and_true, or_false, false_or, iff_false, iff_true] <;>
    constructor
    · rintro (h | h)
      · exact ⟨Or.inl h, by rw [h]; exact h0.1, by rw [h]; exact h0.2⟩
      · exact ⟨Or.inr h, by rw [h]; exact h1.1, by rw [h]; exact h1.2⟩
    · rintro ⟨h | h, -, -⟩
      · exact Or.inl h
      · exact Or.inr h
    · intro h
      exact ⟨Or.inl h, by rw [h]; exact h0.1, by rw [h]; exact h0.2⟩
    · rintro ⟨h | h, hy1, hy2⟩
      · exact h
      · rw [h] at hy1 hy2; exact absurd ⟨hy1, hy2⟩ h1
    · intro h
      exact ⟨Or.inr h, by rw [h]; exact h1.1, by rw [h]; exact h1.2⟩
    · rintro ⟨h | h, hy1, hy2⟩
      · rw [h] at hy1 hy2; exact absurd ⟨hy1, hy2⟩ h0
      · exact h
    · intro h
      exact h.elim
    · rintro ⟨h | h, hy1, hy2⟩
      · rw [h] at hy1 hy2; exact absurd ⟨hy1, hy2⟩ h0
      · rw [h] at hy1 hy2; exact absurd ⟨hy1, hy2⟩ h1
  · intro sq s mn mx ray ha hd t
    rw [coneLocalIntersect, if_neg (fun hh => ha hh.1), if_neg ha, if_neg hd]
    simp only [coneIntersectCaps, Bool.not_false, Bool.true_or, if_true]
    by_cases h0 : mn < rayY ray (coneT0 sq ray) ∧ rayY ray (coneT0 sq ray) < mx <;>
    by_cases h1 : mn < rayY ray (coneT1 sq ray) ∧ rayY ray (coneT1 sq ray) < mx <;>
    simp only [h0, h1, if_true, if_false, List.nil_append, List.mem_append,
      List.mem_singleton, List.mem_cons, List.not_mem_nil, Intersection.mk.injEq,
      and_true, or_false, false_or, iff_false, iff_true] <;>
    constructor
    · rintro (h | h)
      · exact ⟨Or.inl h, by rw [h]; exact h0.1, by rw [h]; exact h0.2⟩
      · exact ⟨Or.inr h, by rw [h]; exact h1.1, by rw [h]; exact h1.2⟩
    · rintro ⟨h | h, -, -⟩
      · exact Or.inl h
      · exact Or.inr h
    · intro h
      exact ⟨Or.inl h, by rw [h]; exact h0.1, by rw [h]; exact h0.2⟩
    · rintro ⟨h | h, hy1, hy2⟩
      · exact h
      · rw [h] at hy1 hy2; exact absurd ⟨hy1, hy2⟩ h1
    · intro h
      exact ⟨Or.inr h, by rw [h]; exact h1.1, by rw [h]; exact h1.2⟩
    · rintro ⟨h | h, hy1, hy2⟩
      · rw [h] at hy1 hy2; exact absurd ⟨hy1, hy2⟩ h0
      · exact h
    · intro h
      exact h.elim
    · rintro ⟨h | h, hy1, hy2⟩
      · rw [h] at hy1 hy2; exact absurd ⟨hy1, hy2⟩ h0
      · rw [h] at hy1 hy2; exact absurd ⟨hy1, hy2⟩ h1

/-- Witness for the amended C7: the root `t = 4` of the mid-height ray
(`y = 1.5`, strictly inside `(1, 2)`) is in the cylinder result, and the
double root `t = 5` of the cone ray (`y = 0`, strictly inside `(-1, 1)`)
is in the cone result. -/
theorem c7_body_roots_witness :
    (⟨4, c7Cylinder⟩ : Intersection) ∈
        cylinderLocalIntersect sqC7 c7Cylinder 1 2 false c7MidRay ∧
    (⟨5, c7Cone⟩ : Intersection) ∈
        coneLocalIntersect sqC7 c7Cone (-1) 1 false c7ConeRay := by
  constructor
  · exact (c7_body_roots_strict_interval.1 sqC7 c7Cylinder 1 2 c7MidRay
      (by norm_num [approxEq, cylA, c7MidRay, Tuple.vector, qabs, f32MachineEpsilon])
      (by norm_num [cylDisc, cylA, cylB, cylC, c7MidRay, Tuple.point, Tuple.vector]) 4).mpr
      ⟨Or.inl (by norm_num [cylT0, cylR0, cylR1, cylA, cylB, cylC, cylDisc, c7MidRay,
        Tuple.point, Tuple.vector, sqC7]),
       by norm_num [rayY, c7MidRay, Tuple.point, Tuple.vector],
       by norm_num [rayY, c7MidRay, Tuple.point, Tuple.vector]⟩
  · exact (c7_body_roots_strict_interval.2 sqC7 c7Cone (-1) 1 c7ConeRay
      (by norm_num [coneA, c7ConeRay, Tuple.vector, qabs, marginEpsilon])
      (by norm_num [coneDisc, coneA, coneB, coneC, c7ConeRay, Tuple.point, Tuple.vector]) 5).mpr
      ⟨Or.inl (by norm_num [coneT0, coneR0, coneR1, coneA, coneB, coneC, coneDisc,
        c7ConeRay, Tuple.point, Tuple.vector, sqC7]),
       by norm_num [rayY, c7ConeRay, Tuple.point, Tuple.vector],
       by norm_num [rayY, c7ConeRay, Tuple.point, Tuple.vector]⟩

/-- C8. `lighting` with `in_shadow = true` returns exactly the ambient term
`effective_color * material.ambient` (where `effective_color` is the
pattern sample or flat color times the light intensity), for every
material, light, point, eye vector and normal: diffuse and specular are
fully suppressed, not partially attenuated. -/
theorem c8_shadow_ambient_only (patternAtShape : ℕ → Shape → Tuple → Color)
    (powf : ℚ → ℚ → ℚ) (sq : ℚ → ℚ) (m : Material) (object : Shape)
    (light : PointLight) (point eyev normalv : Tuple) :
    Material.lighting patternAtShape powf sq m object light point eyev normalv true =
      (match m.pattern with
        | some p => patternAtShape p object point
        | none => m.color) * light.intensity * m.ambient := rfl

/-- C9. `Group::local_normal_at` fails loudly for EVERY input point: the
embedding of the panic returns `none` for every point, group and sqrt
oracle — it never produces a vector. -/
theorem c9_group_local_normal_panics (sq : ℚ → ℚ) (i : ℕ) (tr : Mat4)
    (mat : Material) (children : List Shape) (p : Tuple) :
    Shape.localNormalAt sq (Shape.group i tr mat children) p = none := rfl

/-- C10. If no element of the intersection list compares equal to the
target hit under the code's `Intersection` equality, the returned
`Computations` has `n1 = 0` and `n2 = 0` — not the vacuum default 1.0 — so
the `n_ratio` later computed by `refracted_color` is the division `0 / 0`. -/
theorem c10_unmatched_hit_zero_indices (sq : ℚ → ℚ) (self : Intersection)
    (ray : Ray) (xs : List Intersection)
    (h : ∀ i ∈ xs, Intersection.peq i self = false)
    (c : Computations) (hc : prepareComputations sq self ray xs = some c) :
    c.n1 = 0 ∧ c.n2 = 0 := by
  rcases hn : Shape.normalAt sq self.object (ray.position self.t).x (ray.position self.t).y
      (ray.position self.t).z with _ | nv
  · rw [prepareComputations] at hc
    rw [hn] at hc
    cases hc
  · rw [prepareComputations] at hc
    rw [hn] at hc
    simp only [Option.some.injEq] at hc
    have hns := nsLoop_of_no_match self xs h []
    rw [← hc]
    simp [hns]

/-- Witness for C10: hit `⟨1, defaultSphere⟩` with the list containing only
`⟨2, defaultSphere⟩` (unequal `t`, so no element matches): the computed
`(n1, n2)` is `(0, 0)`. -/
theorem c10_unmatched_hit_witness :
    (prepareComputations zeroSq ⟨1, Shape.defaultSphere 0⟩ zRay c10Xs).map
      (fun c => (c.n1, c.n2)) = some (0, 0) := by
  have hmap := prep_ns_of_sphere zeroSq ⟨1, Shape.defaultSphere 0⟩ zRay c10Xs
    0 Mat4.identity Material.default rfl
  have hno : ∀ i ∈ c10Xs, Intersection.peq i ⟨1, Shape.defaultSphere 0⟩ = false := by
    intro i hi
    simp only [c10Xs, List.mem_singleton] at hi
    subst hi
    norm_num [Intersection.peq]
  rcases homap : prepareComputations zeroSq ⟨1, Shape.defaultSphere 0⟩ zRay c10Xs
      with _ | c
  · rw [homap] at hmap; simp at hmap
  · have h := c10_unmatched_hit_zero_indices zeroSq ⟨1, Shape.defaultSphere 0⟩ zRay
      c10Xs hno c homap
    simp [h.1, h.2]
